import Mathlib

/-!
# Verification of the BrainLink byte-stream decoder

Shallow embedding of `brainlink_parser_linux.py`: a stateful, resynchronizing
binary-protocol parser for a wearable EEG sensor.  Bytes are modelled as `Nat`
(values `< 256` where it matters, with explicit `% 256` for checksum math),
the wall clock consulted by the extended-telemetry throttle is an explicit
`Rat` parameter (`time.time()` made injectable), and callback invocations are
recorded as an explicit event trace.  Temperature is stored as the raw
big-endian value in tenths of a degree: the Python check
`20.0 <= v / 10.0 <= 45.0` on an integer `v` is exactly `200 <= v <= 450`
(the bounds `20.0` and `45.0` are exactly representable and the nearest
quotients are at distance `0.1`, far above any rounding error).
-/

namespace BrainLink

/-- Model of `BrainLinkData` from the source: cognitive state written by the decoder. -/
structure BrainLinkData where
  signal : Nat := 0
  attention : Nat := 0
  meditation : Nat := 0
  delta : Nat := 0
  theta : Nat := 0
  lowAlpha : Nat := 0
  highAlpha : Nat := 0
  lowBeta : Nat := 0
  highBeta : Nat := 0
  lowGamma : Nat := 0
  highGamma : Nat := 0
deriving DecidableEq, Repr

/-- One entry of the `_unknown_stats` defaultdict: occurrence count, set of
observed block lengths, last raw block (Python stores `data.hex()`; storing
the byte list itself carries the same information). -/
structure UnknownStat where
  count : Nat
  lens : List Nat
  last : List Nat
deriving DecidableEq, Repr

/-- Model of `BrainLinkExtendData` from the source.  `temperature` holds the raw
big-endian value in tenths of a degree Celsius. -/
structure BrainLinkExtendData where
  battery : Option Nat := none
  temperature : Option Nat := none
  heart : Option Nat := none
  gyro : Option (Int × Int × Int) := none
  rr : Option (Int × Int × Int) := none
  version : Option String := none
  unknown : List (Nat × UnknownStat) := []
deriving DecidableEq, Repr

/-- The snapshot `_emit_ext_if_changed` builds for its change comparison
(note: the `unknown` map is deliberately not part of it). -/
structure ExtSnapshot where
  battery : Option Nat
  temperature : Option Nat
  heart : Option Nat
  gyro : Option (Int × Int × Int)
  rr : Option (Int × Int × Int)
  version : Option String
deriving DecidableEq, Repr

/-- A recorded callback invocation (callbacks made explicit as a trace). -/
inductive Event where
  | eeg (d : BrainLinkData)
  | ext (d : BrainLinkExtendData)
  | gyro (x y z : Int)
  | rr (a b c : Int)
  | raw (v : Int)
deriving DecidableEq, Repr

/-- All decoder-owned state except the accumulation buffer: callback
registrations, both persistent records, emission snapshots, the throttle
clock and the unknown-field statistics.  (`_parse_payload` and everything
below it never touches `_buf`, so the buffer is threaded separately by the
framing layer.) -/
structure DecoderState where
  eegCb : Bool := false
  extCb : Bool := false
  gyroCb : Bool := false
  rrCb : Bool := false
  rawCb : Bool := false
  eeg : BrainLinkData := {}
  ext : BrainLinkExtendData := {}
  lastEegSnapshot : Option BrainLinkData := none
  lastExtSnapshot : Option ExtSnapshot := none
  lastExtEmitTime : Rat := 0
  extEmitInterval : Rat := 3
  unknownStats : List (Nat × UnknownStat) := []
deriving DecidableEq, Repr

/-- Full parser state: decoder state plus the accumulation buffer `_buf`. -/
structure ParserState where
  dec : DecoderState := {}
  buf : List Nat := []
deriving DecidableEq, Repr

/-- Big-endian value of a byte block (`int.from_bytes(data, "big")`). -/
def beVal (l : List Nat) : Nat := l.foldl (fun acc b => acc * 256 + b) 0

/-- Signed 16-bit big-endian value of two bytes (`struct.unpack(">h", ·)`). -/
def int16be (a b : Nat) : Int :=
  let u := a * 256 + b
  if u < 32768 then (u : Int) else (u : Int) - 65536

/-- The 24-bit big-endian value of three consecutive bytes starting at index `i`. -/
def u24at (l : List Nat) (i : Nat) : Nat :=
  (l.getD i 0) * 65536 + (l.getD (i + 1) 0) * 256 + l.getD (i + 2) 0

/-- Read of `_unknown_stats[key]`, with the defaultdict default. -/
def lookupStat (m : List (Nat × UnknownStat)) (k : Nat) : UnknownStat :=
  match m.lookup k with
  | some st => st
  | none => ⟨0, [], []⟩

/-- Store / overwrite the entry for key `k`. -/
def updateStat (m : List (Nat × UnknownStat)) (k : Nat) (st : UnknownStat) :
    List (Nat × UnknownStat) :=
  match m with
  | [] => [(k, st)]
  | (k0, st0) :: rest =>
    if k0 = k then (k0, st) :: rest else (k0, st0) :: updateStat rest k st

/-- Add a length to the set of observed lengths (`stat["lens"].add`). -/
def insertLen (ls : List Nat) (n : Nat) : List Nat :=
  if n ∈ ls then ls else ls ++ [n]

/-- Model of `_handle_short`: recognized short codes 0x02/0x04/0x05 write signal,
attention, meditation; anything else is skipped with no state change. -/
def handleShort (d : DecoderState) (code val : Nat) : DecoderState × Bool :=
  if code = 0x02 then ({ d with eeg := { d.eeg with signal := val } }, true)
  else if code = 0x04 then ({ d with eeg := { d.eeg with attention := val } }, true)
  else if code = 0x05 then ({ d with eeg := { d.eeg with meditation := val } }, true)
  else (d, false)

/-- Model of `_handle_long`: raw sample (0x80, 2 bytes) goes only to the raw callback;
band powers (0x83, 24 bytes) are eight 3-byte big-endian values. -/
def handleLong (d : DecoderState) (code : Nat) (data : List Nat) :
    DecoderState × List Event × Bool :=
  if code = 0x80 ∧ data.length = 2 then
    let raw := int16be (data.getD 0 0) (data.getD 1 0)
    (d, if d.rawCb then [Event.raw raw] else [], false)
  else if code = 0x83 ∧ data.length = 24 then
    ({ d with eeg := { d.eeg with
        delta := u24at data 0, theta := u24at data 3,
        lowAlpha := u24at data 6, highAlpha := u24at data 9,
        lowBeta := u24at data 12, highBeta := u24at data 15,
        lowGamma := u24at data 18, highGamma := u24at data 21 } }, [], true)
  else (d, [], false)

/-- Model of `_handle_extend`: heuristic classifier for long fields other than the two
EEG-reserved codes; priority gyro (length 6), heart (length 2, 40..200),
battery (length 1, ≤ 100), temperature (length 2, value/10 in [20, 45],
i.e. raw value in [200, 450]), else the unknown-field tracker. -/
def handleExtend (d : DecoderState) (code : Nat) (data : List Nat) :
    DecoderState × List Event × Bool :=
  if code = 0x80 ∨ code = 0x83 then (d, [], false)
  else if data.length = 6 then
    let x := int16be (data.getD 0 0) (data.getD 1 0)
    let y := int16be (data.getD 2 0) (data.getD 3 0)
    let z := int16be (data.getD 4 0) (data.getD 5 0)
    ({ d with ext := { d.ext with gyro := some (x, y, z) } },
     if d.gyroCb then [Event.gyro x y z] else [], true)
  else if data.length = 2 ∧ 40 ≤ beVal data ∧ beVal data ≤ 200 then
    ({ d with ext := { d.ext with heart := some (beVal data) } }, [], true)
  else if data.length = 1 ∧ data.getD 0 0 ≤ 100 then
    ({ d with ext := { d.ext with battery := some (data.getD 0 0) } }, [], true)
  else if data.length = 2 ∧ 200 ≤ beVal data ∧ beVal data ≤ 450 then
    ({ d with ext := { d.ext with temperature := some (beVal data) } }, [], true)
  else
    let st0 := lookupStat d.unknownStats code
    let st : UnknownStat :=
      ⟨st0.count + 1, insertLen st0.lens data.length, data⟩
    ({ d with
        unknownStats := updateStat d.unknownStats code st,
        ext := { d.ext with unknown := updateStat d.ext.unknown code st } },
     [], false)

/-- The field-walking loop of `_parse_payload`: consume a code byte, then
either one value byte (short field) or a length byte and that many data bytes
(long field, truncated at the end of the payload); a trailing code with no
following byte breaks the loop. -/
def parseFields (d : DecoderState) (rest : List Nat) (eegU extU : Bool) :
    DecoderState × List Event × Bool × Bool :=
  match rest with
  | [] => (d, [], eegU, extU)
  | code :: rest1 =>
    if code < 0x80 then
      match rest1 with
      | [] => (d, [], eegU, extU)
      | val :: rest2 =>
        let r := handleShort d code val
        parseFields r.1 rest2 (eegU || r.2) extU
    else
      match rest1 with
      | [] => (d, [], eegU, extU)
      | size :: rest2 =>
        let block := rest2.take size
        let r1 := handleLong d code block
        let r2 := handleExtend r1.1 code block
        let r3 := parseFields r2.1 (rest2.drop size) (eegU || r1.2.2) (extU || r2.2.2)
        (r3.1, r1.2.1 ++ r2.2.1 ++ r3.2.1, r3.2.2)
termination_by rest.length
decreasing_by
  · simp; omega
  · simp [List.length_drop]; omega

/-- Model of `_emit_eeg_if_changed`: fire the cognitive-state callback only if a
relevant field updated, a callback is registered, and the full snapshot
differs from the last snapshot actually emitted. -/
def emitEegIfChanged (d : DecoderState) (updated : Bool) :
    DecoderState × List Event :=
  if updated = false ∨ d.eegCb = false then (d, [])
  else if some d.eeg ≠ d.lastEegSnapshot then
    ({ d with lastEegSnapshot := some d.eeg }, [Event.eeg d.eeg])
  else (d, [])

/-- The comparison snapshot built by `_emit_ext_if_changed`. -/
def extSnap (e : BrainLinkExtendData) : ExtSnapshot :=
  ⟨e.battery, e.temperature, e.heart, e.gyro, e.rr, e.version⟩

/-- Model of `_emit_ext_if_changed`: additionally throttled — at least
`extEmitInterval` must have elapsed since the last emission. -/
def emitExtIfChanged (d : DecoderState) (now : Rat) (updated : Bool) :
    DecoderState × List Event :=
  if updated = false ∨ d.extCb = false then (d, [])
  else if now - d.lastExtEmitTime < d.extEmitInterval then (d, [])
  else if some (extSnap d.ext) ≠ d.lastExtSnapshot then
    ({ d with lastExtSnapshot := some (extSnap d.ext), lastExtEmitTime := now },
     [Event.ext d.ext])
  else (d, [])

/-- Model of `_parse_payload`: walk the fields, then run both change gates. -/
def parsePayload (d : DecoderState) (now : Rat) (payload : List Nat) :
    DecoderState × List Event :=
  let r := parseFields d payload false false
  let r1 := emitEegIfChanged r.1 r.2.2.1
  let r2 := emitExtIfChanged r1.1 now r.2.2.2
  (r2.1, r.2.1 ++ r1.2 ++ r2.2)

/-- The resynchronization scan of `_extract_packet`: delete leading bytes
until the first two buffered bytes are both 0xAA, or fewer than two remain. -/
def dropToMarker (b : List Nat) : List Nat :=
  match b with
  | x :: y :: rest =>
    if x = 0xAA ∧ y = 0xAA then x :: y :: rest else dropToMarker (y :: rest)
  | _ => b

/-- Model of `_extract_packet` applied to an already-resynchronized buffer `c`:
`length = c[2]`, `total = 3 + length + 1`, `payload = c[3 : 3 + length]`,
`checksum = c[3 + length]`; validate
`((sum(payload) & 0xFF) + checksum) & 0xFF == 0xFF`; on failure delete one
byte, on success delete the whole frame and return the payload. -/
def extractAt (c : List Nat) : Option (List Nat) × List Nat :=
  if c.length < 4 then (none, c)
  else if c.length < 3 + c.getD 2 0 + 1 then (none, c)
  else if (((c.drop 3).take (c.getD 2 0)).sum % 256 + c.getD (3 + c.getD 2 0) 0) % 256 ≠ 255
  then (none, c.drop 1)
  else (some ((c.drop 3).take (c.getD 2 0)), c.drop (3 + c.getD 2 0 + 1))

/-- Model of `_extract_packet`: resynchronize to the marker, then validate and
extract.  Returns the validated payload (if any) and the new buffer
contents.  On checksum failure exactly one byte is discarded and no payload
is returned. -/
def extractPacket (b : List Nat) : Option (List Nat) × List Nat :=
  extractAt (dropToMarker b)

theorem dropToMarker_length_le (b : List Nat) :
    (dropToMarker b).length ≤ b.length := by
  induction b with
  | nil => simp [dropToMarker]
  | cons x rest ih =>
    match rest with
    | [] => simp [dropToMarker]
    | y :: rest' =>
      rw [dropToMarker]
      split
      · exact Nat.le_refl _
      · exact Nat.le_trans (ih) (by simp)

theorem extractAt_some_length_lt {c : List Nat} {p b' : List Nat}
    (h : extractAt c = (some p, b')) : b'.length < c.length := by
  unfold extractAt at h
  split at h
  · simp at h
  · split at h
    · simp at h
    · split at h
      · simp at h
      · simp only [Prod.mk.injEq] at h
        obtain ⟨-, h2⟩ := h
        subst h2
        simp only [List.length_drop]
        omega

theorem extractPacket_some_length_lt {b : List Nat} {p b' : List Nat}
    (h : extractPacket b = (some p, b')) : b'.length < b.length :=
  Nat.lt_of_lt_of_le (extractAt_some_length_lt h) (dropToMarker_length_le b)

/-- The extraction loop of `parse`: extract and decode packets until
`_extract_packet` reports no frame. -/
def parseLoop (s : ParserState) (now : Rat) : ParserState × List Event :=
  match h : extractPacket s.buf with
  | (none, b) => (⟨s.dec, b⟩, [])
  | (some payload, b) =>
    let r1 := parsePayload s.dec now payload
    let r2 := parseLoop ⟨r1.1, b⟩ now
    (r2.1, r1.2 ++ r2.2)
termination_by s.buf.length
decreasing_by
  exact extractPacket_some_length_lt h

/-- Model of `parse`: append the chunk to the buffer (empty chunks return at once)
and run the extraction loop. -/
def parse (s : ParserState) (now : Rat) (data : List Nat) :
    ParserState × List Event :=
  if data = [] then (s, [])
  else parseLoop ⟨s.dec, s.buf ++ data⟩ now

/-- A frame as constructed in the spec's testable properties:
`marker, marker, len(P), P, checksum` with
`checksum = (0xFF - (sum(P) & 0xFF)) & 0xFF = 255 - sum(P) % 256`. -/
def mkFrame (P : List Nat) : List Nat :=
  0xAA :: 0xAA :: P.length :: P ++ [255 - P.sum % 256]

/-! ## Basic lemmas about the frame extractor -/

theorem dropToMarker_marker (rest : List Nat) :
    dropToMarker (0xAA :: 0xAA :: rest) = 0xAA :: 0xAA :: rest := by
  rw [dropToMarker]
  simp

theorem extractPacket_nil : extractPacket [] = (none, []) := rfl

theorem extractAt_frame (P tail : List Nat) :
    extractAt (0xAA :: 0xAA :: P.length :: (P ++ [255 - P.sum % 256] ++ tail)) =
      (some P, tail) := by
  have hget2 : (0xAA :: 0xAA :: P.length :: (P ++ [255 - P.sum % 256] ++ tail)).getD 2 0 =
      P.length := by
    simp [List.getD_cons_succ, List.getD_cons_zero]
  have hlen : (0xAA :: 0xAA :: P.length :: (P ++ [255 - P.sum % 256] ++ tail)).length =
      3 + (P.length + 1 + tail.length) := by
    simp
    omega
  have hdrop3 : (0xAA :: 0xAA :: P.length :: (P ++ [255 - P.sum % 256] ++ tail)).drop 3 =
      P ++ [255 - P.sum % 256] ++ tail := rfl
  have htake : (P ++ [255 - P.sum % 256] ++ tail).take P.length = P := by
    rw [List.append_assoc]
    exact List.take_left P _
  have hchk : (P ++ [255 - P.sum % 256] ++ tail).getD P.length 0 = 255 - P.sum % 256 := by
    rw [List.append_assoc, List.getD_append_right P _ _ _ (le_refl _)]
    simp
  have hchk' : (0xAA :: 0xAA :: P.length :: (P ++ [255 - P.sum % 256] ++ tail)).getD
      (3 + P.length) 0 = 255 - P.sum % 256 := by
    simp only [List.getD_cons_succ, Nat.add_comm 3 P.length]
    exact hchk
  have hdroptot : (0xAA :: 0xAA :: P.length :: (P ++ [255 - P.sum % 256] ++ tail)).drop
      (3 + P.length + 1) = tail := by
    have h3 : 3 + P.length + 1 = 3 + (P.length + 1) := by omega
    have h1 : (0xAA :: 0xAA :: P.length :: (P ++ [255 - P.sum % 256] ++ tail)).drop
        (3 + P.length + 1) = (P ++ [255 - P.sum % 256] ++ tail).drop (P.length + 1) := by
      rw [h3, ← List.drop_drop]
      rfl
    rw [h1]
    have hl : (P ++ [255 - P.sum % 256]).length = P.length + 1 := by simp
    calc (P ++ [255 - P.sum % 256] ++ tail).drop (P.length + 1)
        = (P ++ [255 - P.sum % 256] ++ tail).drop (P ++ [255 - P.sum % 256]).length := by
          rw [hl]
      _ = tail := List.drop_left _ _
  unfold extractAt
  rw [hget2, hlen]
  rw [if_neg (by omega), if_neg (by omega), hdrop3, htake, hchk', if_neg (by omega), hdroptot]

theorem extractPacket_frame (P tail : List Nat) :
    extractPacket (mkFrame P ++ tail) = (some P, tail) := by
  have hm : mkFrame P ++ tail =
      0xAA :: 0xAA :: P.length :: (P ++ [255 - P.sum % 256] ++ tail) := by
    simp [mkFrame]
  rw [hm, extractPacket, dropToMarker_marker]
  exact extractAt_frame P tail

theorem parseLoop_none {s : ParserState} {now : Rat} {b : List Nat}
    (h : extractPacket s.buf = (none, b)) :
    parseLoop s now = (⟨s.dec, b⟩, []) := by
  rw [parseLoop]
  split
  next b2 heq => rw [h] at heq; cases heq; rfl
  next p b2 heq => rw [h] at heq; cases heq

theorem parseLoop_some {s : ParserState} {now : Rat} {p b : List Nat}
    (h : extractPacket s.buf = (some p, b)) :
    parseLoop s now =
      ((parseLoop ⟨(parsePayload s.dec now p).1, b⟩ now).1,
       (parsePayload s.dec now p).2 ++
         (parseLoop ⟨(parsePayload s.dec now p).1, b⟩ now).2) := by
  rw [parseLoop]
  split
  next b2 heq => rw [h] at heq; cases heq
  next p2 b2 heq => rw [h] at heq; cases heq; rfl

/-- Feeding one well-formed frame to a parser with an empty buffer processes
exactly its payload and leaves the buffer empty. -/
theorem parse_single_frame (s : ParserState) (now : Rat) (P : List Nat)
    (hbuf : s.buf = []) :
    parse s now (mkFrame P) =
      (⟨(parsePayload s.dec now P).1, []⟩, (parsePayload s.dec now P).2) := by
  have hne : ¬(mkFrame P = []) := by simp [mkFrame]
  rw [parse, if_neg hne, hbuf]
  have h1 : extractPacket (([] : List Nat) ++ mkFrame P) = (some P, []) := by
    have := extractPacket_frame P []
    simpa using this
  rw [parseLoop_some h1, parseLoop_none extractPacket_nil]
  simp

/-- C2: For every payload `P`, feeding the single frame
`0xAA, 0xAA, len(P), P, checksum` with `checksum = (0xFF - (sum(P) & 0xFF)) & 0xFF`
to `parse` extracts exactly that payload and decodes it with the payload
decoder (the expected `CognitiveState`/`ExtendedTelemetry` field values); in
particular payload bytes `04 64` yield `attention == 100`. -/
theorem frame_roundtrip_decodes_payload (s : ParserState) (now : Rat) (P : List Nat)
    (hbuf : s.buf = []) (hlen : P.length ≤ 255) :
    parse s now (mkFrame P) =
      (⟨(parsePayload s.dec now P).1, []⟩, (parsePayload s.dec now P).2) ∧
    (parse (⟨{ eegCb := true }, []⟩ : ParserState) 0
        (mkFrame [0x04, 0x64])).1.dec.eeg.attention = 100 := by
  refine ⟨parse_single_frame s now P hbuf, ?_⟩
  rw [parse_single_frame _ _ _ rfl]
  simp [parsePayload, parseFields, handleShort, emitEegIfChanged, emitExtIfChanged]

/-- Witness for C2 at the concrete payload `[0x04, 0x64]`. -/
theorem frame_roundtrip_decodes_payload_witness :
    parse (⟨{}, []⟩ : ParserState) 0 (mkFrame [0x04, 0x64]) =
      (⟨(parsePayload ({} : DecoderState) 0 [0x04, 0x64]).1, []⟩,
       (parsePayload ({} : DecoderState) 0 [0x04, 0x64]).2) ∧
    (parse (⟨{ eegCb := true }, []⟩ : ParserState) 0
        (mkFrame [0x04, 0x64])).1.dec.eeg.attention = 100 :=
  frame_roundtrip_decodes_payload ⟨{}, []⟩ 0 [0x04, 0x64] rfl (by decide)

theorem sum_set_add (P : List Nat) (i v : Nat) (h : i < P.length) :
    (P.set i v).sum + P.getD i 0 = P.sum + v := by
  induction P generalizing i with
  | nil => simp at h
  | cons x xs ih =>
    cases i with
    | zero =>
      simp only [List.set_cons_zero, List.sum_cons, List.getD_cons_zero]
      omega
    | succ n =>
      simp only [List.set_cons_succ, List.sum_cons, List.getD_cons_succ]
      have := ih n (by simpa using h)
      omega

theorem extractAt_fail {c : List Nat}
    (hlen : 3 + c.getD 2 0 + 1 ≤ c.length)
    (hck : (((c.drop 3).take (c.getD 2 0)).sum % 256 + c.getD (3 + c.getD 2 0) 0) % 256
      ≠ 255) :
    extractAt c = (none, c.drop 1) := by
  unfold extractAt
  rw [if_neg (by omega), if_neg (by omega), if_pos hck]

/-- A buffered candidate frame (marker at the front, full frame present)
whose checksum fails loses exactly its first byte. -/
theorem extractPacket_checksum_fail (b : List Nat) (h2 : 2 ≤ b.length)
    (h0 : b.getD 0 0 = 0xAA) (h1 : b.getD 1 0 = 0xAA)
    (hlen : 3 + b.getD 2 0 + 1 ≤ b.length)
    (hck : (((b.drop 3).take (b.getD 2 0)).sum % 256 + b.getD (3 + b.getD 2 0) 0) % 256
      ≠ 255) :
    extractPacket b = (none, b.drop 1) := by
  match b, h2 with
  | x :: y :: rest, _ =>
    simp only [List.getD_cons_zero, List.getD_cons_succ] at h0 h1
    subst h0; subst h1
    rw [extractPacket, dropToMarker_marker]
    exact extractAt_fail hlen hck

/-- C4: A complete buffered candidate frame failing checksum validation
loses exactly one byte (the first marker byte) from the buffer front — never
the whole frame; in particular flipping any single payload byte of a valid
frame causes this one-byte discard. -/
theorem checksum_failure_discards_one_byte :
    (∀ b : List Nat, 2 ≤ b.length → b.getD 0 0 = 0xAA → b.getD 1 0 = 0xAA →
      3 + b.getD 2 0 + 1 ≤ b.length →
      (((b.drop 3).take (b.getD 2 0)).sum % 256 + b.getD (3 + b.getD 2 0) 0) % 256 ≠ 255 →
      extractPacket b = (none, b.drop 1)) ∧
    (∀ P : List Nat, ∀ i v : Nat, (∀ x ∈ P, x < 256) → i < P.length → v < 256 →
      v ≠ P.getD i 0 →
      extractPacket (0xAA :: 0xAA :: P.length :: (P.set i v ++ [255 - P.sum % 256])) =
        (none, 0xAA :: P.length :: (P.set i v ++ [255 - P.sum % 256]))) := by
  constructor
  · exact extractPacket_checksum_fail
  · intro P i v hbytes hi hv hne
    have hsetlen : (P.set i v).length = P.length := List.length_set P i v
    have ha : P.getD i 0 < 256 := by
      have hmem : P.getD i 0 ∈ P := by
        rw [List.getD_eq_getElem _ _ hi]
        exact List.getElem_mem hi
      exact hbytes _ hmem
    have hsum := sum_set_add P i v hi
    have h2 : (0xAA :: 0xAA :: P.length :: (P.set i v ++ [255 - P.sum % 256])).getD 2 0
        = P.length := by simp
    have hlen : (0xAA :: 0xAA :: P.length :: (P.set i v ++ [255 - P.sum % 256])).length
        = 3 + P.length + 1 := by simp [hsetlen]; omega
    have hdrop3 : (0xAA :: 0xAA :: P.length :: (P.set i v ++ [255 - P.sum % 256])).drop 3
        = P.set i v ++ [255 - P.sum % 256] := rfl
    have htake : (P.set i v ++ [255 - P.sum % 256]).take P.length = P.set i v := by
      rw [← hsetlen]
      exact List.take_left _ _
    have hchk : (0xAA :: 0xAA :: P.length :: (P.set i v ++ [255 - P.sum % 256])).getD
        (3 + P.length) 0 = 255 - P.sum % 256 := by
      simp only [List.getD_cons_succ, Nat.add_comm 3 P.length]
      rw [← hsetlen, List.getD_append_right _ _ _ _ (le_refl _)]
      simp
    have := extractPacket_checksum_fail
      (0xAA :: 0xAA :: P.length :: (P.set i v ++ [255 - P.sum % 256]))
      (by rw [hlen]; omega) (by simp) (by simp)
      (by rw [h2, hlen])
      (by rw [h2, hdrop3, htake, hchk]; omega)
    simpa using this

/-- Witness for C4: a bad empty-payload frame loses one byte, and the valid
frame for payload `[4, 100]` with its second payload byte flipped to `0`
loses exactly one byte. -/
theorem checksum_failure_discards_one_byte_witness :
    extractPacket [0xAA, 0xAA, 0, 0] = (none, [0xAA, 0, 0]) ∧
    extractPacket [0xAA, 0xAA, 2, 4, 0, 151] = (none, [0xAA, 2, 4, 0, 151]) :=
  ⟨checksum_failure_discards_one_byte.1 [0xAA, 0xAA, 0, 0]
      (by decide) (by decide) (by decide) (by decide) (by decide),
   checksum_failure_discards_one_byte.2 [4, 100] 1 0
      (by decide) (by decide) (by decide) (by decide)⟩

/-- The three signed 16-bit big-endian axes read from a 6-byte gyro block
(abbreviation used only to state the classifier's behavior). -/
def gyroTriple (data : List Nat) : Int × Int × Int :=
  (int16be (data.getD 0 0) (data.getD 1 0),
   int16be (data.getD 2 0) (data.getD 3 0),
   int16be (data.getD 4 0) (data.getD 5 0))

/-- The updated statistics record the unknown-field tracker stores for a
block (abbreviation used only to state the classifier's behavior). -/
def bumpStat (m : List (Nat × UnknownStat)) (code : Nat) (data : List Nat) :
    UnknownStat :=
  ⟨(lookupStat m code).count + 1, insertLen (lookupStat m code).lens data.length, data⟩

/-- C5: For every long-field code not in `{0x80, 0x83}` and every data
block, the extended classifier applies the fixed priority order: length 6 →
gyro (always accepted, any values); else length 2 with unsigned big-endian
value in `[40, 200]` → heart rate; else length 1 with value ≤ 100 → battery;
else length 2 with value/10 in `[20.0, 45.0]` (reachable part: raw value in
`(200, 450]`) → temperature; otherwise the unknown-field tracker. -/
theorem extend_classifier_priority (d : DecoderState) (code : Nat) (data : List Nat)
    (h80 : code ≠ 0x80) (h83 : code ≠ 0x83) :
    (data.length = 6 →
      handleExtend d code data =
        ({ d with ext := { d.ext with gyro := some (gyroTriple data) } },
         if d.gyroCb then
           [Event.gyro (gyroTriple data).1 (gyroTriple data).2.1 (gyroTriple data).2.2]
         else [], true)) ∧
    (data.length = 2 → 40 ≤ beVal data → beVal data ≤ 200 →
      handleExtend d code data =
        ({ d with ext := { d.ext with heart := some (beVal data) } }, [], true)) ∧
    (data.length = 1 → data.getD 0 0 ≤ 100 →
      handleExtend d code data =
        ({ d with ext := { d.ext with battery := some (data.getD 0 0) } }, [], true)) ∧
    (data.length = 2 → 200 < beVal data → beVal data ≤ 450 →
      handleExtend d code data =
        ({ d with ext := { d.ext with temperature := some (beVal data) } }, [], true)) ∧
    ((data.length ≠ 6 ∧ data.length ≠ 2 ∧ data.length ≠ 1) ∨
        (data.length = 2 ∧ (beVal data < 40 ∨ 450 < beVal data)) ∨
        (data.length = 1 ∧ 100 < data.getD 0 0) →
      handleExtend d code data =
        ({ d with
            unknownStats := updateStat d.unknownStats code (bumpStat d.unknownStats code data),
            ext := { d.ext with
              unknown := updateStat d.ext.unknown code (bumpStat d.unknownStats code data) } },
         [], false)) := by
  have hc : ¬(code = 0x80 ∨ code = 0x83) := by
    rintro (h | h)
    · exact h80 h
    · exact h83 h
  refine ⟨?_, ?_, ?_, ?_, ?_⟩
  · intro h6
    unfold handleExtend
    rw [if_neg hc, if_pos h6]
    simp [gyroTriple]
  · intro h2 hlo hhi
    unfold handleExtend
    rw [if_neg hc, if_neg (by omega), if_pos ⟨h2, hlo, hhi⟩]
  · intro h1 hval
    unfold handleExtend
    rw [if_neg hc, if_neg (by omega), if_neg (by rintro ⟨h, -⟩; omega),
      if_pos ⟨h1, hval⟩]
  · intro h2 hlo hhi
    unfold handleExtend
    rw [if_neg hc, if_neg (by omega), if_neg (by rintro ⟨-, -, h⟩; omega),
      if_neg (by rintro ⟨h, -⟩; omega), if_pos ⟨h2, by omega, hhi⟩]
  · intro hcase
    unfold handleExtend
    rcases hcase with ⟨h6, h2, h1⟩ | ⟨h2, hv⟩ | ⟨h1, hv⟩
    · rw [if_neg hc, if_neg h6, if_neg (by rintro ⟨h, -⟩; omega),
        if_neg (by rintro ⟨h, -⟩; omega), if_neg (by rintro ⟨h, -⟩; omega)]
      rfl
    · rw [if_neg hc, if_neg (by omega), if_neg (by rintro ⟨-, hlo, hhi⟩; omega),
        if_neg (by rintro ⟨h, -⟩; omega), if_neg (by rintro ⟨-, hlo, hhi⟩; omega)]
      rfl
    · rw [if_neg hc, if_neg (by omega), if_neg (by rintro ⟨h, -⟩; omega),
        if_neg (by rintro ⟨-, h⟩; omega), if_neg (by rintro ⟨h, -⟩; omega)]
      rfl

/-- Witness for C5: a 6-byte block is always gyro, and a 1-byte block with
value 101 is routed to the unknown tracker, not battery. -/
theorem extend_classifier_priority_witness :
    handleExtend {} 0x90 [0, 1, 0, 2, 0, 3] =
      ({ ext := { gyro := some (1, 2, 3) } }, [], true) ∧
    handleExtend {} 0x90 [101] =
      ({ unknownStats := [(0x90, ⟨1, [1], [101]⟩)],
         ext := { unknown := [(0x90, ⟨1, [1], [101]⟩)] } }, [], false) := by
  constructor
  · rw [(extend_classifier_priority {} 0x90 [0, 1, 0, 2, 0, 3]
        (by decide) (by decide)).1 (by decide)]
    decide
  · rw [(extend_classifier_priority {} 0x90 [101]
        (by decide) (by decide)).2.2.2.2 (Or.inr (Or.inr ⟨rfl, by decide⟩))]
    decide

/-- C8: Decoding a validated payload is total and degrades gracefully:
an unrecognized short code is skipped with no state change, a trailing field
code with no value/length byte abandons only that field, and a long field
whose declared length exceeds the remaining payload is truncated to the
remaining bytes, after which the walk ends cleanly. -/
theorem payload_decode_total_graceful :
    (∀ (d : DecoderState) (code val : Nat) (rest : List Nat) (u e : Bool),
      code < 0x80 → code ≠ 0x02 → code ≠ 0x04 → code ≠ 0x05 →
      parseFields d (code :: val :: rest) u e = parseFields d rest u e) ∧
    (∀ (d : DecoderState) (code : Nat) (u e : Bool),
      parseFields d [code] u e = (d, [], u, e)) ∧
    (∀ (d : DecoderState) (code size : Nat) (rest : List Nat) (u e : Bool),
      0x80 ≤ code → rest.length ≤ size →
      parseFields d (code :: size :: rest) u e =
        ((handleExtend (handleLong d code rest).1 code rest).1,
         (handleLong d code rest).2.1 ++
           (handleExtend (handleLong d code rest).1 code rest).2.1,
         u || (handleLong d code rest).2.2,
         e || (handleExtend (handleLong d code rest).1 code rest).2.2)) := by
  refine ⟨?_, ?_, ?_⟩
  · intro d code val rest u e hlt h2 h4 h5
    conv_lhs => rw [parseFields]
    rw [if_pos hlt]
    unfold handleShort
    rw [if_neg h2, if_neg h4, if_neg h5]
    simp
  · intro d code u e
    rw [parseFields]
    split <;> rfl
  · intro d code size rest u e hge hlen
    conv_lhs => rw [parseFields]
    rw [if_neg (by omega)]
    rw [List.take_of_length_le hlen, List.drop_eq_nil_of_le hlen]
    simp [parseFields]

/-- Witness for C8: an unknown short code `0x07` is skipped; a trailing code
alone breaks cleanly; a long field declaring 9 bytes with only 1 remaining is
truncated (here classified as battery from the single byte). -/
theorem payload_decode_total_graceful_witness :
    parseFields ({} : DecoderState) [0x07, 0x01] false false = ({}, [], false, false) ∧
    parseFields ({} : DecoderState) [0x90] false false = ({}, [], false, false) ∧
    parseFields ({} : DecoderState) [0x84, 9, 1] false false =
      ({ ext := { battery := some 1 } }, [], false, true) := by
  refine ⟨?_, payload_decode_total_graceful.2.1 {} 0x90 false false, ?_⟩
  · rw [payload_decode_total_graceful.1 {} 0x07 0x01 [] false false
      (by decide) (by decide) (by decide) (by decide)]
    simp [parseFields]
  · rw [payload_decode_total_graceful.2.2 {} 0x84 9 [1] false false
      (by decide) (by decide)]
    decide

/-- C9: A payload field with code `0x80` and a 2-byte block is decoded as
a signed 16-bit big-endian value delivered only to the raw-sample callback
(when registered); decoder state — `CognitiveState`, `ExtendedTelemetry` and
both emission snapshots — passes through that field unchanged. -/
theorem raw_field_only_raw_callback (d : DecoderState) (a b : Nat) (rest : List Nat)
    (u e : Bool) :
    parseFields d (0x80 :: 2 :: a :: b :: rest) u e =
      ((parseFields d rest u e).1,
       (if d.rawCb then [Event.raw (int16be a b)] else []) ++ (parseFields d rest u e).2.1,
       (parseFields d rest u e).2.2) := by
  conv_lhs => rw [parseFields]
  simp [handleLong, handleExtend]

/-! ## Change-gate lemmas -/

/-- The decoder fields read by the two change gates (the field walk never
touches them). -/
def gatesOf (d : DecoderState) :
    Bool × Bool × Option BrainLinkData × Option ExtSnapshot × Rat × Rat :=
  (d.eegCb, d.extCb, d.lastEegSnapshot, d.lastExtSnapshot, d.lastExtEmitTime,
   d.extEmitInterval)

theorem handleShort_gates (d : DecoderState) (c v : Nat) :
    gatesOf (handleShort d c v).1 = gatesOf d := by
  unfold handleShort
  split_ifs <;> rfl

theorem handleLong_gates (d : DecoderState) (c : Nat) (b : List Nat) :
    gatesOf (handleLong d c b).1 = gatesOf d := by
  unfold handleLong
  split_ifs <;> rfl

theorem handleExtend_gates (d : DecoderState) (c : Nat) (b : List Nat) :
    gatesOf (handleExtend d c b).1 = gatesOf d := by
  unfold handleExtend
  split_ifs <;> rfl

theorem parseFields_gates (d : DecoderState) (rest : List Nat) (u e : Bool) :
    gatesOf (parseFields d rest u e).1 = gatesOf d := by
  induction d, rest, u, e using parseFields.induct <;>
    (try rw [parseFields]) <;> split_ifs <;>
    (try simp_all [handleShort_gates, handleLong_gates, handleExtend_gates]) <;>
    first
      | exact handleShort_gates _ _ _
      | exact (handleExtend_gates _ _ _).trans (handleLong_gates _ _ _)

theorem gatesOf_eq_iff {x y : DecoderState} (h : gatesOf x = gatesOf y) :
    x.eegCb = y.eegCb ∧ x.extCb = y.extCb ∧ x.lastEegSnapshot = y.lastEegSnapshot ∧
    x.lastExtSnapshot = y.lastExtSnapshot ∧ x.lastExtEmitTime = y.lastExtEmitTime ∧
    x.extEmitInterval = y.extEmitInterval := by
  simp only [gatesOf, Prod.mk.injEq] at h
  exact h

theorem handleLong_events (d : DecoderState) (c : Nat) (b : List Nat) :
    ∀ ev ∈ (handleLong d c b).2.1, ∃ i, ev = Event.raw i := by
  intro ev hev
  unfold handleLong at hev
  split_ifs at hev <;> simp_all

theorem handleExtend_events (d : DecoderState) (c : Nat) (b : List Nat) :
    ∀ ev ∈ (handleExtend d c b).2.1, ∃ x y z, ev = Event.gyro x y z := by
  intro ev hev
  unfold handleExtend at hev
  split_ifs at hev <;> simp_all

theorem parseFields_events (d : DecoderState) (rest : List Nat) (u e : Bool) :
    ∀ ev ∈ (parseFields d rest u e).2.1,
      (∃ i, ev = Event.raw i) ∨ ∃ x y z, ev = Event.gyro x y z := by
  induction d, rest, u, e using parseFields.induct
  all_goals (try rw [parseFields])
  all_goals (try split_ifs)
  all_goals intro ev hev
  all_goals first
    | (simp_all; done)
    | solve_by_elim
    | (simp only [List.mem_append, or_assoc] at hev
       rcases hev with hl | he | hrec
       · exact Or.inl (handleLong_events _ _ _ ev hl)
       · exact Or.inr (handleExtend_events _ _ _ ev he)
       · solve_by_elim)

theorem emitEeg_trace (d : DecoderState) (u : Bool) :
    (emitEegIfChanged d u).2 =
      if u = true ∧ d.eegCb = true ∧ some d.eeg ≠ d.lastEegSnapshot
      then [Event.eeg d.eeg] else [] := by
  unfold emitEegIfChanged
  split_ifs <;> simp_all

theorem emitExt_trace (d : DecoderState) (now : Rat) (u : Bool) :
    (emitExtIfChanged d now u).2 =
      if u = true ∧ d.extCb = true ∧ ¬(now - d.lastExtEmitTime < d.extEmitInterval) ∧
          some (extSnap d.ext) ≠ d.lastExtSnapshot
      then [Event.ext d.ext] else [] := by
  unfold emitExtIfChanged
  split_ifs <;> simp_all

theorem emitEeg_keeps (d : DecoderState) (u : Bool) :
    (emitEegIfChanged d u).1.ext = d.ext ∧ (emitEegIfChanged d u).1.eeg = d.eeg ∧
    (emitEegIfChanged d u).1.extCb = d.extCb ∧
    (emitEegIfChanged d u).1.lastExtSnapshot = d.lastExtSnapshot ∧
    (emitEegIfChanged d u).1.lastExtEmitTime = d.lastExtEmitTime ∧
    (emitEegIfChanged d u).1.extEmitInterval = d.extEmitInterval := by
  unfold emitEegIfChanged
  split_ifs <;> simp

theorem emitExt_keeps (d : DecoderState) (now : Rat) (u : Bool) :
    (emitExtIfChanged d now u).1.ext = d.ext ∧ (emitExtIfChanged d now u).1.eeg = d.eeg := by
  unfold emitExtIfChanged
  split_ifs <;> simp

/-- Equation laying `_parse_payload` out as its three stages (definitional). -/
theorem parsePayload_eq (d : DecoderState) (now : Rat) (payload : List Nat) :
    parsePayload d now payload =
      ((emitExtIfChanged (emitEegIfChanged (parseFields d payload false false).1
          (parseFields d payload false false).2.2.1).1 now
          (parseFields d payload false false).2.2.2).1,
       (parseFields d payload false false).2.1 ++
         (emitEegIfChanged (parseFields d payload false false).1
           (parseFields d payload false false).2.2.1).2 ++
         (emitExtIfChanged (emitEegIfChanged (parseFields d payload false false).1
           (parseFields d payload false false).2.2.1).1 now
           (parseFields d payload false false).2.2.2).2) := rfl

/-- Is this event a cognitive-state callback invocation? -/
def isEeg : Event → Bool
  | Event.eeg _ => true
  | _ => false

/-- Is this event an extended-telemetry callback invocation? -/
def isExt : Event → Bool
  | Event.ext _ => true
  | _ => false

/-- C6: The cognitive-state callback fires for a payload iff a relevant
field updated in it, a callback is registered, and the full snapshot differs
from the last one actually emitted; two consecutive valid frames carrying
the same attention value invoke the callback exactly once. -/
theorem eeg_emit_iff (d : DecoderState) (now : Rat) (P : List Nat) :
    ((∃ x, Event.eeg x ∈ (parsePayload d now P).2) ↔
      ((parseFields d P false false).2.2.1 = true ∧ d.eegCb = true ∧
        some (parseFields d P false false).1.eeg ≠ d.lastEegSnapshot)) ∧
    ((parse (⟨{ eegCb := true }, []⟩ : ParserState) 0 (mkFrame [0x04, 0x64])).2 ++
       (parse (parse (⟨{ eegCb := true }, []⟩ : ParserState) 0 (mkFrame [0x04, 0x64])).1 0
         (mkFrame [0x04, 0x64])).2).countP isEeg = 1 := by
  constructor
  · obtain ⟨hcb, -, hsnap, -, -, -⟩ := gatesOf_eq_iff (parseFields_gates d P false false)
    rw [parsePayload_eq]
    constructor
    · rintro ⟨x, hx⟩
      simp only [List.mem_append, or_assoc] at hx
      rcases hx with h1 | h2 | h3
      · rcases parseFields_events d P false false _ h1 with ⟨i, hi⟩ | ⟨a, b, c, habc⟩ <;>
          simp_all
      · rw [emitEeg_trace] at h2
        by_cases hC : (parseFields d P false false).2.2.1 = true ∧
            (parseFields d P false false).1.eegCb = true ∧
            some (parseFields d P false false).1.eeg ≠
              (parseFields d P false false).1.lastEegSnapshot
        · exact ⟨hC.1, by rw [← hcb]; exact hC.2.1, by rw [← hsnap]; exact hC.2.2⟩
        · rw [if_neg hC] at h2
          simp at h2
      · rw [emitExt_trace] at h3
        split_ifs at h3 <;> simp_all
    · rintro ⟨hu, hcb', hne⟩
      refine ⟨(parseFields d P false false).1.eeg, ?_⟩
      simp only [List.mem_append]
      refine Or.inl (Or.inr ?_)
      rw [emitEeg_trace, if_pos ⟨hu, by rw [hcb]; exact hcb', by rw [hsnap]; exact hne⟩]
      simp
  · rw [parse_single_frame _ _ _ rfl]
    rw [parse_single_frame _ _ _ rfl]
    simp [parsePayload, parseFields, handleShort, emitEegIfChanged, emitExtIfChanged,
      isEeg]

/-- Witness for C6 at the concrete payload `[0x04, 0x64]` fed twice. -/
theorem eeg_emit_iff_witness :
    ((∃ x, Event.eeg x ∈
        (parsePayload ({ eegCb := true } : DecoderState) 0 [0x04, 0x64]).2) ↔
      ((parseFields ({ eegCb := true } : DecoderState) [0x04, 0x64] false false).2.2.1
          = true ∧
        ({ eegCb := true } : DecoderState).eegCb = true ∧
        some (parseFields ({ eegCb := true } : DecoderState) [0x04, 0x64]
            false false).1.eeg ≠ ({ eegCb := true } : DecoderState).lastEegSnapshot)) ∧
    ((parse (⟨{ eegCb := true }, []⟩ : ParserState) 0 (mkFrame [0x04, 0x64])).2 ++
       (parse (parse (⟨{ eegCb := true }, []⟩ : ParserState) 0 (mkFrame [0x04, 0x64])).1 0
         (mkFrame [0x04, 0x64])).2).countP isEeg = 1 :=
  eeg_emit_iff ({ eegCb := true } : DecoderState) 0 [0x04, 0x64]

/-- C7: The extended-telemetry callback fires for a payload iff an
extended field updated in it, a callback is registered, the throttle
interval has elapsed since the last emission, and the six-field snapshot
differs from the last emitted one; failing a condition suppresses emission
but the state update is still applied (conjunct two); two telemetry-changing
frames less than the interval apart emit at most once while both updates are
applied (concrete conjunct). -/
theorem ext_emit_conditions (d : DecoderState) (now : Rat) (P : List Nat) :
    ((∃ x, Event.ext x ∈ (parsePayload d now P).2) ↔
      ((parseFields d P false false).2.2.2 = true ∧ d.extCb = true ∧
        ¬(now - d.lastExtEmitTime < d.extEmitInterval) ∧
        some (extSnap (parseFields d P false false).1.ext) ≠ d.lastExtSnapshot)) ∧
    (parsePayload d now P).1.ext = (parseFields d P false false).1.ext ∧
    (((parse (⟨{ extCb := true }, []⟩ : ParserState) 10 (mkFrame [0x85, 1, 50])).2 ++
        (parse (parse (⟨{ extCb := true }, []⟩ : ParserState) 10
          (mkFrame [0x85, 1, 50])).1 11 (mkFrame [0x85, 1, 60])).2).countP isExt = 1 ∧
      (parse (parse (⟨{ extCb := true }, []⟩ : ParserState) 10
        (mkFrame [0x85, 1, 50])).1 11 (mkFrame [0x85, 1, 60])).1.dec.ext.battery =
          some 60) := by
  obtain ⟨-, hextcb, -, hextsnap, htime, hint⟩ :=
    gatesOf_eq_iff (parseFields_gates d P false false)
  obtain ⟨hkext, -, hkcb, hksnap, hktime, hkint⟩ :=
    emitEeg_keeps (parseFields d P false false).1 (parseFields d P false false).2.2.1
  refine ⟨?_, ?_, ?_⟩
  · rw [parsePayload_eq]
    constructor
    · rintro ⟨x, hx⟩
      simp only [List.mem_append, or_assoc] at hx
      rcases hx with h1 | h2 | h3
      · rcases parseFields_events d P false false _ h1 with ⟨i, hi⟩ | ⟨a, b, c, habc⟩ <;>
          simp_all
      · rw [emitEeg_trace] at h2
        split_ifs at h2 <;> simp_all
      · rw [emitExt_trace] at h3
        by_cases hC : (parseFields d P false false).2.2.2 = true ∧
            (emitEegIfChanged (parseFields d P false false).1
              (parseFields d P false false).2.2.1).1.extCb = true ∧
            ¬(now - (emitEegIfChanged (parseFields d P false false).1
                (parseFields d P false false).2.2.1).1.lastExtEmitTime <
              (emitEegIfChanged (parseFields d P false false).1
                (parseFields d P false false).2.2.1).1.extEmitInterval) ∧
            some (extSnap (emitEegIfChanged (parseFields d P false false).1
                (parseFields d P false false).2.2.1).1.ext) ≠
              (emitEegIfChanged (parseFields d P false false).1
                (parseFields d P false false).2.2.1).1.lastExtSnapshot
        · obtain ⟨c1, c2, c3, c4⟩ := hC
          refine ⟨c1, ?_, ?_, ?_⟩
          · rw [← hextcb, ← hkcb]
            exact c2
          · rw [← htime, ← hktime, ← hint, ← hkint]
            exact c3
          · rw [← hextsnap, ← hksnap, ← hkext]
            exact c4
        · rw [if_neg hC] at h3
          simp at h3
    · rintro ⟨hu, hcb', htm, hne⟩
      refine ⟨(emitEegIfChanged (parseFields d P false false).1
        (parseFields d P false false).2.2.1).1.ext, ?_⟩
      simp only [List.mem_append]
      refine Or.inr ?_
      rw [emitExt_trace, if_pos ⟨hu, by rw [hkcb, hextcb]; exact hcb',
        by rw [hktime, htime, hkint, hint]; exact htm,
        by rw [hkext, hksnap, hextsnap]; exact hne⟩]
      simp
  · rw [parsePayload_eq]
    rw [(emitExt_keeps _ now _).1, hkext]
  · rw [parse_single_frame _ _ _ rfl]
    rw [parse_single_frame _ _ _ rfl]
    simp +decide [parsePayload, parseFields, handleLong, handleExtend, emitEegIfChanged,
      emitExtIfChanged, isExt, extSnap, beVal,
      show ¬((10 : Rat) - 0 < 3) by norm_num, show (11 : Rat) - 10 < 3 by norm_num]

/-- Witness for C7 at the concrete payload `[0x85, 1, 50]` (battery 50). -/
theorem ext_emit_conditions_witness :
    ((∃ x, Event.ext x ∈
        (parsePayload ({ extCb := true } : DecoderState) 10 [0x85, 1, 50]).2) ↔
      ((parseFields ({ extCb := true } : DecoderState) [0x85, 1, 50]
          false false).2.2.2 = true ∧
        ({ extCb := true } : DecoderState).extCb = true ∧
        ¬((10 : Rat) - ({ extCb := true } : DecoderState).lastExtEmitTime <
          ({ extCb := true } : DecoderState).extEmitInterval) ∧
        some (extSnap (parseFields ({ extCb := true } : DecoderState) [0x85, 1, 50]
            false false).1.ext) ≠
          ({ extCb := true } : DecoderState).lastExtSnapshot)) ∧
    (parsePayload ({ extCb := true } : DecoderState) 10 [0x85, 1, 50]).1.ext =
      (parseFields ({ extCb := true } : DecoderState) [0x85, 1, 50] false false).1.ext ∧
    (((parse (⟨{ extCb := true }, []⟩ : ParserState) 10 (mkFrame [0x85, 1, 50])).2 ++
        (parse (parse (⟨{ extCb := true }, []⟩ : ParserState) 10
          (mkFrame [0x85, 1, 50])).1 11 (mkFrame [0x85, 1, 60])).2).countP isExt = 1 ∧
      (parse (parse (⟨{ extCb := true }, []⟩ : ParserState) 10
        (mkFrame [0x85, 1, 50])).1 11 (mkFrame [0x85, 1, 60])).1.dec.ext.battery =
          some 60) :=
  ext_emit_conditions ({ extCb := true } : DecoderState) 10 [0x85, 1, 50]

theorem lookupStat_updateStat (m : List (Nat × UnknownStat)) (k : Nat)
    (st : UnknownStat) : lookupStat (updateStat m k st) k = st := by
  induction m with
  | nil => simp [updateStat, lookupStat, List.lookup]
  | cons p rest ih =>
    obtain ⟨k0, st0⟩ := p
    by_cases h : k0 = k
    · subst h
      simp [updateStat, lookupStat, List.lookup]
    · rw [updateStat, if_neg h]
      unfold lookupStat at ih ⊢
      rw [List.lookup]
      have hbeq : (k == k0) = false := by
        simp [Ne.symm h]
      rw [hbeq]
      exact ih

/-- C10: A long field routed to the unknown-field tracker never reports
an extended update (while its statistics are still recorded); the `unknown`
map is excluded from the emission snapshot; a payload reporting no extended
update produces no extended-telemetry emission. -/
theorem unknown_field_no_ext_emit :
    (∀ (d : DecoderState) (code : Nat) (data : List Nat),
      code ≠ 0x80 → code ≠ 0x83 → data.length ≠ 6 →
      ¬(data.length = 2 ∧ 40 ≤ beVal data ∧ beVal data ≤ 200) →
      ¬(data.length = 1 ∧ data.getD 0 0 ≤ 100) →
      ¬(data.length = 2 ∧ 200 ≤ beVal data ∧ beVal data ≤ 450) →
      (handleExtend d code data).2.2 = false ∧
      lookupStat (handleExtend d code data).1.unknownStats code =
        bumpStat d.unknownStats code data) ∧
    (∀ (e : BrainLinkExtendData) (u : List (Nat × UnknownStat)),
      extSnap { e with unknown := u } = extSnap e) ∧
    (∀ (d : DecoderState) (now : Rat) (P : List Nat),
      (parseFields d P false false).2.2.2 = false →
      ∀ x, Event.ext x ∉ (parsePayload d now P).2) := by
  refine ⟨?_, ?_, ?_⟩
  · intro d code data h80 h83 h6 hh hb ht
    have hc : ¬(code = 0x80 ∨ code = 0x83) := by
      rintro (h | h)
      · exact h80 h
      · exact h83 h
    unfold handleExtend
    rw [if_neg hc, if_neg h6, if_neg hh, if_neg hb, if_neg ht]
    exact ⟨rfl, lookupStat_updateStat _ _ _⟩
  · intro e u
    rfl
  · intro d now P hfalse x hx
    rw [parsePayload_eq] at hx
    simp only [List.mem_append, or_assoc] at hx
    rcases hx with h1 | h2 | h3
    · rcases parseFields_events d P false false _ h1 with ⟨i, hi⟩ | ⟨a, b, c, habc⟩ <;>
        simp_all
    · rw [emitEeg_trace] at h2
      split_ifs at h2 <;> simp_all
    · rw [emitExt_trace, if_neg (by rw [hfalse]; simp)] at h3
      simp at h3

/-- Witness for C10: a 1-byte block with value 255 goes to the unknown
tracker with no extended update, and the payload `[0x90, 1, 255]` produces
no extended-telemetry emission. -/
theorem unknown_field_no_ext_emit_witness :
    ((handleExtend ({} : DecoderState) 0x90 [255]).2.2 = false ∧
      lookupStat (handleExtend ({} : DecoderState) 0x90 [255]).1.unknownStats 0x90 =
        bumpStat ({} : DecoderState).unknownStats 0x90 [255]) ∧
    extSnap { ({} : BrainLinkExtendData) with unknown := [(1, ⟨1, [1], [7]⟩)] } =
      extSnap ({} : BrainLinkExtendData) ∧
    Event.ext {} ∉
      (parsePayload ({ extCb := true } : DecoderState) 10 [0x90, 1, 255]).2 :=
  ⟨unknown_field_no_ext_emit.1 {} 0x90 [255] (by decide) (by decide) (by decide)
      (by decide) (by decide) (by decide),
   unknown_field_no_ext_emit.2.1 {} [(1, ⟨1, [1], [7]⟩)],
   unknown_field_no_ext_emit.2.2 { extCb := true } 10 [0x90, 1, 255]
      (by simp [parseFields, handleLong, handleExtend]) {}⟩

/-! ## The extraction-loop invariant (C1) -/

theorem dropToMarker_idem (b : List Nat) :
    dropToMarker (dropToMarker b) = dropToMarker b := by
  induction b with
  | nil => rfl
  | cons x rest ih =>
    cases rest with
    | nil => rfl
    | cons y rest2 =>
      rw [dropToMarker]
      split
      next h =>
        obtain ⟨rfl, rfl⟩ := h
        exact dropToMarker_marker _
      next h => exact ih

theorem extractPacket_dropToMarker (b : List Nat) :
    extractPacket (dropToMarker b) = extractPacket b := by
  rw [extractPacket, extractPacket, dropToMarker_idem]

/-- Computes `true` iff repeatedly running `_extract_packet` from this buffer never
hits a checksum failure (the only way an extraction attempt returns "no
frame" while still discarding a byte beyond the marker scan). -/
def noChecksumFailure (b : List Nat) : Bool :=
  match h : extractPacket b with
  | (none, b2) => b2 == dropToMarker b
  | (some _, b2) => noChecksumFailure b2
termination_by b.length
decreasing_by exact extractPacket_some_length_lt h

theorem noChecksumFailure_none {b b2 : List Nat}
    (h : extractPacket b = (none, b2)) :
    noChecksumFailure b = (b2 == dropToMarker b) := by
  rw [noChecksumFailure]
  split
  next b3 heq => rw [h] at heq; cases heq; rfl
  next p b3 heq => rw [h] at heq; cases heq

theorem noChecksumFailure_some {b p b2 : List Nat}
    (h : extractPacket b = (some p, b2)) :
    noChecksumFailure b = noChecksumFailure b2 := by
  rw [noChecksumFailure]
  split
  next b3 heq => rw [h] at heq; cases heq
  next q b3 heq => rw [h] at heq; cases heq; rfl

theorem parseLoop_clean (now : Rat) :
    ∀ (n : Nat) (s : ParserState), s.buf.length ≤ n →
      noChecksumFailure s.buf = true →
      (extractPacket (parseLoop s now).1.buf).1 = none := by
  intro n
  induction n with
  | zero =>
    intro s hlen hcl
    have hb : s.buf = [] := List.eq_nil_of_length_eq_zero (by omega)
    have h0 : extractPacket s.buf = (none, []) := by rw [hb]; rfl
    rw [parseLoop_none h0]
    rfl
  | succ n ih =>
    intro s hlen hcl
    match hx : extractPacket s.buf with
    | (none, b) =>
      rw [parseLoop_none hx]
      have hb : b = dropToMarker s.buf := by
        rw [noChecksumFailure_none hx] at hcl
        exact eq_of_beq hcl
      show (extractPacket b).1 = none
      rw [hb, extractPacket_dropToMarker, hx]
    | (some p, b) =>
      rw [parseLoop_some hx]
      apply ih
      · have := extractPacket_some_length_lt hx
        show b.length ≤ n
        omega
      · show noChecksumFailure b = true
        rw [← noChecksumFailure_some hx]
        exact hcl

/-- C1 (amended): when `parse()` returns after a call during which no
extraction attempt hit a checksum failure, the accumulation buffer contains
no complete, checksum-valid frame that has not yet been extracted.  (After a
checksum failure discards a byte, `_extract_packet` reports "no frame" and
the loop of `parse()` breaks for that call, so a remaining valid frame is
only extracted by the next call — see the counterexample.) -/
theorem parse_clean_run_leaves_no_frame (s : ParserState) (now : Rat)
    (data : List Nat) (hne : data ≠ [])
    (hclean : noChecksumFailure (s.buf ++ data) = true) :
    (extractPacket (parse s now data).1.buf).1 = none := by
  rw [parse, if_neg hne]
  exact parseLoop_clean now (s.buf ++ data).length ⟨s.dec, s.buf ++ data⟩
    (le_refl _) hclean

/-- C1 as stated is false: feed, in one chunk, a candidate frame with a
bad checksum followed by a valid empty-payload frame.  `parse` returns with
the valid frame still sitting (extractable) in the buffer, because the
checksum failure made `_extract_packet` return `None`, which breaks the
extraction loop. -/
theorem parse_leaves_valid_frame_after_failure :
    (extractPacket (parse (⟨{}, []⟩ : ParserState) 0
        [0xAA, 0xAA, 0x00, 0x00, 0xAA, 0xAA, 0x00, 0xFF]).1.buf).1 = some [] := by
  have h1 : extractPacket (([] : List Nat) ++
      [0xAA, 0xAA, 0x00, 0x00, 0xAA, 0xAA, 0x00, 0xFF]) =
      (none, [0xAA, 0x00, 0x00, 0xAA, 0xAA, 0x00, 0xFF]) := by decide
  rw [parse, if_neg (by decide), parseLoop_none h1]
  decide

/-- Witness for the amended C1 at a concrete clean run: one valid
empty-payload frame. -/
theorem parse_clean_run_leaves_no_frame_witness :
    (extractPacket (parse (⟨{}, []⟩ : ParserState) 0
        [0xAA, 0xAA, 0x00, 0xFF]).1.buf).1 = none := by
  have hs : extractPacket (([] : List Nat) ++ [0xAA, 0xAA, 0x00, 0xFF]) =
      (some [], []) := by decide
  have hclean : noChecksumFailure (([] : List Nat) ++ [0xAA, 0xAA, 0x00, 0xFF]) =
      true := by
    rw [noChecksumFailure_some hs,
      noChecksumFailure_none (show extractPacket ([] : List Nat) = (none, []) from rfl)]
    decide
  exact parse_clean_run_leaves_no_frame ⟨{}, []⟩ 0 [0xAA, 0xAA, 0x00, 0xFF]
    (by decide) hclean

/-! ## Chunk-split equivalence (C3) -/

/-- Decode a sequence of payloads in order (what `parse` does to a buffer
holding exactly these frames). -/
def processPayloads (d : DecoderState) (now : Rat) (ps : List (List Nat)) :
    DecoderState × List Event :=
  match ps with
  | [] => (d, [])
  | p :: rest =>
    let r1 := parsePayload d now p
    let r2 := processPayloads r1.1 now rest
    (r2.1, r1.2 ++ r2.2)

/-- A strict prefix of a single well-formed frame (what remains buffered
after feeding a chunk that ends mid-frame). -/
def IsFramePrefix (r : List Nat) : Prop :=
  r = [] ∨ ∃ Q m, m < 4 + Q.length ∧ r = (mkFrame Q).take m

theorem extractAt_short {c : List Nat} (h : c.length < 3 + c.getD 2 0 + 1) :
    extractAt c = (none, c) := by
  unfold extractAt
  split_ifs <;> first | rfl | omega

/-- A strict frame prefix yields no packet and is left untouched. -/
theorem extractPacket_framePrefix {r : List Nat} (h : IsFramePrefix r) :
    extractPacket r = (none, r) := by
  rcases h with rfl | ⟨Q, m, hm, rfl⟩
  · rfl
  · cases m with
    | zero => simp [extractPacket, dropToMarker, extractAt]
    | succ m1 =>
      cases m1 with
      | zero =>
        have h1 : (mkFrame Q).take 1 = [0xAA] := by simp [mkFrame]
        rw [h1]
        decide
      | succ m2 =>
        cases m2 with
        | zero =>
          have h2 : (mkFrame Q).take 2 = [0xAA, 0xAA] := by simp [mkFrame]
          rw [h2]
          decide
        | succ m3 =>
          have htk : (mkFrame Q).take (m3 + 3) =
              0xAA :: 0xAA :: Q.length :: (Q ++ [255 - Q.sum % 256]).take m3 := rfl
          rw [htk, extractPacket, dropToMarker_marker]
          apply extractAt_short
          have hlen : ((Q ++ [255 - Q.sum % 256]).take m3).length = m3 := by
            rw [List.length_take]
            simp only [List.length_append, List.length_cons, List.length_nil]
            omega
          simp only [List.length_cons, hlen, List.getD_cons_succ, List.getD_cons_zero]
          omega

/-- Extracting from a buffer holding a sequence of frames followed by a
strict frame prefix decodes exactly those frames in order and leaves the
prefix buffered. -/
theorem parseLoop_frames (now : Rat) (ps : List (List Nat)) :
    ∀ (d : DecoderState) (r : List Nat), IsFramePrefix r →
      parseLoop ⟨d, (ps.map mkFrame).join ++ r⟩ now =
        (⟨(processPayloads d now ps).1, r⟩, (processPayloads d now ps).2) := by
  induction ps with
  | nil =>
    intro d r hr
    simp only [List.map_nil, List.join_nil, List.nil_append]
    rw [parseLoop_none (extractPacket_framePrefix hr)]
    simp [processPayloads]
  | cons p ps ih =>
    intro d r hr
    have hb : ((p :: ps).map mkFrame).join ++ r =
        mkFrame p ++ ((ps.map mkFrame).join ++ r) := by
      simp
    rw [hb, parseLoop_some (extractPacket_frame p ((ps.map mkFrame).join ++ r)),
      ih (parsePayload d now p).1 r hr]
    simp [processPayloads]

/-- Running `parse` on a chunk that completes a sequence of frames and ends in a
strict frame prefix. -/
theorem parse_frames (s : ParserState) (now : Rat) (data : List Nat)
    (ps : List (List Nat)) (r : List Nat) (hne : data ≠ [])
    (heq : s.buf ++ data = (ps.map mkFrame).join ++ r) (hr : IsFramePrefix r) :
    parse s now data =
      (⟨(processPayloads s.dec now ps).1, r⟩, (processPayloads s.dec now ps).2) := by
  rw [parse, if_neg hne, heq]
  exact parseLoop_frames now ps s.dec r hr

theorem processPayloads_append (now : Rat) (ps1 ps2 : List (List Nat)) :
    ∀ d : DecoderState,
      processPayloads d now (ps1 ++ ps2) =
        ((processPayloads (processPayloads d now ps1).1 now ps2).1,
         (processPayloads d now ps1).2 ++
           (processPayloads (processPayloads d now ps1).1 now ps2).2) := by
  induction ps1 with
  | nil =>
    intro d
    simp [processPayloads]
  | cons p ps ih =>
    intro d
    simp [processPayloads, ih]

/-- Splitting a concatenation of frames at an arbitrary offset: the first
part is some whole frames plus a strict frame prefix, and that prefix glued
to the second part is exactly the remaining frames. -/
theorem join_frames_split (ps : List (List Nat)) :
    ∀ n : Nat, ∃ ps1 ps2 r, ps = ps1 ++ ps2 ∧
      ((ps.map mkFrame).join).take n = ((ps1.map mkFrame).join) ++ r ∧
      r ++ ((ps.map mkFrame).join).drop n = ((ps2.map mkFrame).join) ∧
      IsFramePrefix r := by
  induction ps with
  | nil =>
    intro n
    exact ⟨[], [], [], rfl, by simp, by simp, Or.inl rfl⟩
  | cons p ps ih =>
    intro n
    by_cases h : n < (mkFrame p).length
    · refine ⟨[], p :: ps, (mkFrame p).take n, rfl, ?_, ?_, Or.inr ⟨p, n, ?_, rfl⟩⟩
      · simp only [List.map_cons, List.join_cons, List.map_nil, List.join_nil,
          List.nil_append]
        rw [List.take_append_eq_append_take, Nat.sub_eq_zero_of_le (le_of_lt h)]
        simp
      · simp only [List.map_cons, List.join_cons]
        rw [List.drop_append_eq_append_drop, Nat.sub_eq_zero_of_le (le_of_lt h)]
        simp only [List.drop_zero, ← List.append_assoc, List.take_append_drop]
      · have hl : (mkFrame p).length = p.length + 4 := by
          simp [mkFrame]
        omega
    · obtain ⟨ps1, ps2, r, hps, ht, hd, hr⟩ := ih (n - (mkFrame p).length)
      refine ⟨p :: ps1, ps2, r, by rw [hps]; rfl, ?_, ?_, hr⟩
      · simp only [List.map_cons, List.join_cons]
        rw [List.take_append_eq_append_take, List.take_of_length_le (by omega), ht]
        simp
      · simp only [List.map_cons, List.join_cons]
        rw [List.drop_append_eq_append_drop, List.drop_eq_nil_of_le (by omega)]
        simpa using hd

/-- A byte stream consisting of well-formed frames. -/
def ValidStream (stream : List Nat) : Prop :=
  ∃ ps : List (List Nat), (∀ p ∈ ps, p.length ≤ 255) ∧
    stream = (ps.map mkFrame).join

/-- C3: For every valid byte stream and every split offset (including
mid-frame), feeding the stream as two sequential chunks produces the same
final state and the same sequence of callback invocations as feeding it in
one chunk (the injected clock reading held fixed). -/
theorem split_feed_trace_eq (s : ParserState) (now : Rat) (stream : List Nat)
    (n : Nat) (hbuf : s.buf = []) (hv : ValidStream stream) :
    (parse (parse s now (stream.take n)).1 now (stream.drop n)).1 =
      (parse s now stream).1 ∧
    (parse s now (stream.take n)).2 ++
      (parse (parse s now (stream.take n)).1 now (stream.drop n)).2 =
      (parse s now stream).2 := by
  obtain ⟨ps, hlen255, rfl⟩ := hv
  by_cases hd0 : ((ps.map mkFrame).join).drop n = []
  · have htn : ((ps.map mkFrame).join).take n = (ps.map mkFrame).join :=
      List.take_of_length_le (List.drop_eq_nil_iff.mp hd0)
    rw [htn, hd0]
    constructor <;> simp [parse]
  · by_cases ht0 : ((ps.map mkFrame).join).take n = []
    · have hn0 : ((ps.map mkFrame).join).drop n = (ps.map mkFrame).join := by
        rcases (List.take_eq_nil_iff).mp ht0 with h | h
        · rw [h]
          rfl
        · rw [h] at hd0
          simp at hd0
      rw [ht0, hn0]
      constructor <;> simp [parse]
    · obtain ⟨ps1, ps2, r, hps, ht, hdd, hr⟩ := join_frames_split ps n
      subst hps
      have h1 := parse_frames s now (((ps1 ++ ps2).map mkFrame).join.take n) ps1 r
        ht0 (by rw [hbuf]; simpa using ht) hr
      have hbuf2 : (parse s now (((ps1 ++ ps2).map mkFrame).join.take n)).1.buf = r := by
        rw [h1]
      have h2 := parse_frames (parse s now (((ps1 ++ ps2).map mkFrame).join.take n)).1
        now (((ps1 ++ ps2).map mkFrame).join.drop n) ps2 [] hd0
        (by rw [hbuf2, List.append_nil]; exact hdd) (Or.inl rfl)
      have h3 := parse_frames s now (((ps1 ++ ps2).map mkFrame).join) (ps1 ++ ps2) []
        (by intro hJ; rw [hJ] at hd0; simp at hd0)
        (by rw [hbuf]; simp) (Or.inl rfl)
      rw [processPayloads_append now ps1 ps2 s.dec] at h3
      rw [h2, h1, h3]
      constructor <;> simp

/-- Witness for C3: the six-byte frame for payload `[0x04, 0x64]` followed by
the frame for `[0x05, 0x32]`, split mid-first-frame at offset 5. -/
theorem split_feed_trace_eq_witness :
    (parse (parse (⟨{ eegCb := true }, []⟩ : ParserState) 0
        ((mkFrame [0x04, 0x64] ++ mkFrame [0x05, 0x32]).take 5)).1 0
      ((mkFrame [0x04, 0x64] ++ mkFrame [0x05, 0x32]).drop 5)).1 =
      (parse (⟨{ eegCb := true }, []⟩ : ParserState) 0
        (mkFrame [0x04, 0x64] ++ mkFrame [0x05, 0x32])).1 ∧
    (parse (⟨{ eegCb := true }, []⟩ : ParserState) 0
        ((mkFrame [0x04, 0x64] ++ mkFrame [0x05, 0x32]).take 5)).2 ++
      (parse (parse (⟨{ eegCb := true }, []⟩ : ParserState) 0
        ((mkFrame [0x04, 0x64] ++ mkFrame [0x05, 0x32]).take 5)).1 0
        ((mkFrame [0x04, 0x64] ++ mkFrame [0x05, 0x32]).drop 5)).2 =
      (parse (⟨{ eegCb := true }, []⟩ : ParserState) 0
        (mkFrame [0x04, 0x64] ++ mkFrame [0x05, 0x32])).2 :=
  split_feed_trace_eq (⟨{ eegCb := true }, []⟩ : ParserState) 0
    (mkFrame [0x04, 0x64] ++ mkFrame [0x05, 0x32]) 5 rfl
    ⟨[[0x04, 0x64], [0x05, 0x32]], by decide, by decide⟩

end BrainLink
